import Mathlib

/-
Verification of the shalm chart runtime (pkg/shalm/chart.go): the chart
runtime object, the jewel (managed secret) state machine, and the
apply/delete orchestration.  Machine integers (uint32) are modelled as
Nat with explicit reduction mod 2^32; Go byte maps are association lists
keyed by strings; fallible Go functions return Except or an Option error.
-/

namespace Shalm

/-- Errors are opaque strings. -/
abbrev Err := String

/-- A Go map[string][]byte payload, as an association list (payload key to
bytes, rendered as a string). -/
abbrev DataMap := List (String × String)

/-- Jewel lifecycle states: stateInit = 0, stateLoaded = 1, stateReady = 2. -/
inductive JState where
  | init
  | loaded
  | ready
deriving DecidableEq, Repr

/-- One observable call to a jewel backend. -/
inductive BCall where
  | applyCall (input : DataMap)
  | templateCall
deriving DecidableEq, Repr

/-- A JewelBackend: Name(), Keys() and Apply(data).  A ComplexJewelBackend
additionally provides Template() and Delete(); both are nullary in Go, so
they are modelled as their (fixed) results.  `complex = none` is a simple
backend, `complex = some (templateResult, deleteResult)` a complex one. -/
structure Backend where
  name : String
  keys : List (String × String)
  applyFn : DataMap → Except Err DataMap
  complex : Option ((Except Err DataMap) × Option Err)

/-- The jewel struct: backend, state, name, data. -/
structure Jewel where
  backend : Backend
  state : JState
  name : String
  data : DataMap

/-- A Vault: Read(name) plus the IsNotExist error classifier (Write is not
needed by any claim). -/
structure Vault where
  readFn : String → Except Err DataMap
  isNotExist : Err → Bool

/-- jewel.read(v): attempts v.Read(name); a not-found error is swallowed
(state and data unchanged); any other error is returned (state and data
unchanged); on success data is replaced and state becomes Loaded. -/
def Jewel.read (j : Jewel) (v : Vault) : Jewel × Option Err :=
  match v.readFn j.name with
  | .error e => if v.isNotExist e then (j, none) else (j, some e)
  | .ok d => ({ j with data := d, state := .loaded }, none)

/-- Result of jewel.ensure: the (possibly updated) jewel, the returned
error, and the backend calls that were made. -/
structure ERes where
  jewel : Jewel
  err : Option Err
  calls : List BCall

/-- jewel.ensure(): dispatch on state.  Ready: no-op.  Loaded: backend
Apply with the held data.  Init: Template() if the backend is complex,
else Apply with an empty payload.  On success the result becomes data and
the state becomes Ready; on backend error nothing changes. -/
def Jewel.ensure (j : Jewel) : ERes :=
  match j.state with
  | .ready => ⟨j, none, []⟩
  | .loaded =>
    match j.backend.applyFn j.data with
    | .error e => ⟨j, some e, [.applyCall j.data]⟩
    | .ok d => ⟨{ j with data := d, state := .ready }, none, [.applyCall j.data]⟩
  | .init =>
    match j.backend.complex with
    | some cpx =>
      match cpx.1 with
      | .error e => ⟨j, some e, [.templateCall]⟩
      | .ok d => ⟨{ j with data := d, state := .ready }, none, [.templateCall]⟩
    | none =>
      match j.backend.applyFn [] with
      | .error e => ⟨j, some e, [.applyCall []]⟩
      | .ok d => ⟨{ j with data := d, state := .ready }, none, [.applyCall []]⟩

/-- jewel.delete(): ComplexJewelBackend.Delete() when the backend is
complex, otherwise a silent no-op. -/
def Jewel.del (j : Jewel) : Option Err :=
  match j.backend.complex with
  | some cpx => cpx.2
  | none => none

/-- dataValue(data): a nil byte slice decodes to the empty string,
otherwise the bytes decode as text. -/
def dataValue : Option String → String
  | some s => s
  | none => ""

/-- jewel.templateValues(): runs ensure discarding its error, then maps
every declared field name to the text decoding of the held payload. -/
def Jewel.templateValues (j : Jewel) : Jewel × List (String × String) :=
  let r := Jewel.ensure j
  (r.jewel, r.jewel.backend.keys.map (fun kv => (kv.1, dataValue (List.lookup kv.2 r.jewel.data))))

mutual
/-- Starlark values as far as the chart runtime observes them: strings,
host mappings, sandbox-wrapped mappings, callables (opaque script or
builtin functions, identified by a tag), chart-class metadata values,
jewels and nested charts. -/
inductive SValue where
  | str (s : String)
  | dict (entries : List (String × SValue))
  | sandboxDict (entries : List (String × SValue))
  | callable (tag : String)
  | clazzV (cname cversion : String)
  | jewelV (j : Jewel)
  | subchart (c : ChartI)

inductive ChartI where
  | mk (clazzName clazzVersion suffix ns : String)
      (values : List (String × SValue)) (methods : List (String × String))
end

def ChartI.values : ChartI → List (String × SValue)
  | .mk _ _ _ _ vs _ => vs

def ChartI.methods : ChartI → List (String × String)
  | .mk _ _ _ _ _ ms => ms

def ChartI.clazzName : ChartI → String
  | .mk n _ _ _ _ _ => n

def ChartI.clazzVersion : ChartI → String
  | .mk _ v _ _ _ _ => v

def ChartI.suffix : ChartI → String
  | .mk _ _ s _ _ _ => s

def ChartI.ns : ChartI → String
  | .mk _ _ _ n _ _ => n

def ChartI.withValues : ChartI → List (String × SValue) → ChartI
  | .mk n v s ns _ ms, vs => .mk n v s ns vs ms

/-- chartImpl.GetName(): the class name, dash-joined with the suffix when
a suffix is configured. -/
def chartGetName (c : ChartI) : String :=
  if ChartI.suffix c = "" then ChartI.clazzName c
  else ChartI.clazzName c ++ "-" ++ ChartI.suffix c

/-- Modelled from the spec: wrapDict (source outside this file) exposes a
native mapping as a sandbox-native dictionary value and leaves every
other value untouched. -/
def wrapDict : SValue → SValue
  | .dict es => .sandboxDict es
  | v => v

/-- Modelled from the spec: unwrapDict (source outside this file) turns a
sandbox dictionary wrapper back into host form and leaves every other
value untouched. -/
def unwrapDict : SValue → SValue
  | .sandboxDict es => .dict es
  | v => v

/-- Go map update: replace the first binding of the key, else append. -/
def assocSet (l : List (String × SValue)) (k : String) (v : SValue) :
    List (String × SValue) :=
  match l with
  | [] => [(k, v)]
  | (k0, v0) :: rest =>
    if k0 = k then (k, v) :: rest else (k0, v0) :: assocSet rest k v

/-- Attribute-resolution failures: a starlark NoSuchAttrError, or an
ordinary error bubbled up from a backend. -/
inductive AErr where
  | noSuchAttr (msg : String)
  | backend (e : Err)
deriving DecidableEq, Repr

/-- chartImpl.Attr: reserved names namespace, name and the class handle
come first and shadow user values; then the values mapping (wrapped for
the sandbox); then the methods mapping; otherwise a NoSuchAttrError. -/
def chartAttr (c : ChartI) (a : String) : Except AErr SValue :=
  if a = "namespace" then .ok (.str (ChartI.ns c))
  else if a = "name" then .ok (.str (chartGetName c))
  else if a = "__class__" then .ok (.clazzV (ChartI.clazzName c) (ChartI.clazzVersion c))
  else
    match List.lookup a (ChartI.values c) with
    | some v => .ok (wrapDict v)
    | none =>
      match List.lookup a (ChartI.methods c) with
      | some m => .ok (.callable m)
      | none => .error (.noSuchAttr ("chart has no ." ++ a ++ " attribute"))

/-- chartImpl.SetField: stores the unwrapped value into the values
mapping and always returns a nil error. -/
def chartSetField (c : ChartI) (a : String) (v : SValue) : ChartI × Option Err :=
  (ChartI.withValues c (assocSet (ChartI.values c) a (unwrapDict v)), none)

/-- jewel.Attr: the key "name" answers without touching the backend; a
name outside the backend's declared key mapping is a NoSuchAttrError
referencing the backend name; otherwise ensure() runs first (its error
propagates) and the payload under the mapped key decodes as text. -/
def jewelAttr (j : Jewel) (a : String) : Jewel × Except AErr SValue × List BCall :=
  if a = "name" then (j, .ok (.str j.name), [])
  else
    match List.lookup a j.backend.keys with
    | none => (j, .error (.noSuchAttr (j.backend.name ++ " has no ." ++ a ++ " attribute")), [])
    | some key =>
      let r := Jewel.ensure j
      match r.err with
      | some e => (r.jewel, .error (.backend e), r.calls)
      | none => (r.jewel, .ok (.str (dataValue (List.lookup key r.jewel.data))), r.calls)

/-- uint32 arithmetic: reduce mod 2^32. -/
def u32 (n : Nat) : Nat := n % 4294967296

/-- The sandbox's string hash (starlark-go softHashString): 32-bit FNV-1a
over the string's bytes; modelled over the characters, which coincides
with the byte hash for the ASCII strings used here. -/
def fnvHash (s : String) : Nat :=
  s.data.foldl (fun h c => u32 ((h ^^^ c.toNat) * 16777619)) 2166136261

/-- How a hash request can fail: an error return, or a Go panic (the only
panicking Hash in scope is jewel.Hash, "implement me"). -/
inductive HashFailure where
  | err (e : String)
  | panicked (msg : String)
deriving DecidableEq, Repr

mutual
/-- The starlark Hash of each value kind in scope: strings hash by FNV,
callables and class values hash by their identity tags, host and sandbox
mappings are unhashable (error), a jewel panics ("implement me"), and a
nested chart hashes by chartImpl.Hash recursively. -/
def svalueHash : SValue → Except HashFailure Nat
  | .str s => .ok (fnvHash s)
  | .dict _ => .error (.err "unhashable type: dict")
  | .sandboxDict _ => .error (.err "unhashable type: dict")
  | .callable t => .ok (fnvHash t)
  | .clazzV n _ => .ok (fnvHash n)
  | .jewelV _ => .error (.panicked "implement me")
  | .subchart c => chartHashGo c

/-- chartImpl.Hash: x starts at 8731 and m at 9839; per entry, x takes
3 * hash(key) by XOR, then hash(value) * m by XOR, and m grows by 7349;
a value whose Hash fails aborts the whole hash. -/
def chartHashGo : ChartI → Except HashFailure Nat
  | .mk _ _ _ _ vs _ => hashEntries vs 8731 9839

/-- The entry fold of chartImpl.Hash over the iteration order vs, with
accumulator x and per-position multiplier m. -/
def hashEntries : List (String × SValue) → Nat → Nat → Except HashFailure Nat
  | [], x, _ => .ok x
  | (k, e) :: rest, x, m =>
    match svalueHash e with
    | .error f => .error f
    | .ok y => hashEntries rest (u32 (u32 (x ^^^ u32 (3 * fnvHash k)) ^^^ u32 (y * m))) (u32 (m + 7349))
end

/-- Observable calls of the orchestration: dispatch of a sub-chart's
script apply/delete hook, a jewel's vault read, a jewel's secret release,
and the submission of a chart's rendered manifests to the cluster client
(carrying the Namespaced option in force). -/
inductive Event where
  | hookApply (chart : String)
  | hookDelete (chart : String)
  | vaultRead (jewel : String)
  | jewelDelete (jewel : String)
  | k8sApply (chart : String) (namespaced : Bool)
  | k8sDelete (chart : String) (namespaced : Bool)
deriving DecidableEq, Repr

/-- The environment of one orchestration run: outcomes of the cluster
client's Apply/Delete per chart name, of the script-supplied sub-chart
hooks per chart name (modelled from the spec: hooks are opaque callables
supplied by the package script), and the vault read oracle with its
IsNotExist classifier. -/
structure World where
  applyRes : String → Option Err
  deleteRes : String → Option Err
  hookApplyRes : String → Option Err
  hookDeleteRes : String → Option Err
  readRes : String → Except Err DataMap
  isNotExist : Err → Bool

/-- The vault a world presents to jewels during applyLocal. -/
def worldVault (w : World) : Vault := ⟨w.readRes, w.isNotExist⟩

/-- chartImpl.eachSubChart specialised to the delete hook: walk the
values in iteration order, dispatch each sub-chart's script delete hook,
stop at the first error. -/
def eachSubChartDelete (w : World) : List (String × SValue) → Option Err × List Event
  | [] => (none, [])
  | (_, .subchart sc) :: rest =>
    match w.hookDeleteRes (chartGetName sc) with
    | some e => (some e, [.hookDelete (chartGetName sc)])
    | none =>
      let t := eachSubChartDelete w rest
      (t.1, .hookDelete (chartGetName sc) :: t.2)
  | _ :: rest => eachSubChartDelete w rest

/-- chartImpl.eachVault specialised to jewel.delete: release each jewel's
backing secret in iteration order, stopping at the first error. -/
def eachVaultDelete : List (String × SValue) → Option Err × List Event
  | [] => (none, [])
  | (_, .jewelV j) :: rest =>
    match Jewel.del j with
    | some e => (some e, [.jewelDelete j.name])
    | none =>
      let t := eachVaultDelete rest
      (t.1, .jewelDelete j.name :: t.2)
  | _ :: rest => eachVaultDelete rest

/-- chartImpl.deleteLocal: force Namespaced to false, submit the chart's
own rendered manifest removals to the cluster client, and only on
success release the chart's own jewels. -/
def deleteLocalM (w : World) (c : ChartI) : Option Err × List Event :=
  match w.deleteRes (chartGetName c) with
  | some e => (some e, [.k8sDelete (chartGetName c) false])
  | none =>
    let t := eachVaultDelete (ChartI.values c)
    (t.1, .k8sDelete (chartGetName c) false :: t.2)

/-- chartImpl.delete (the internal delete hook): dispatch every
sub-chart's script delete hook first; only if that whole pass succeeds,
run the chart's own deleteLocal. -/
def chartDeleteM (w : World) (c : ChartI) : Option Err × List Event :=
  let s := eachSubChartDelete w (ChartI.values c)
  match s.1 with
  | some e => (some e, s.2)
  | none =>
    let l := deleteLocalM w c
    (l.1, s.2 ++ l.2)

/-- chartImpl.eachSubChart specialised to the apply hook. -/
def eachSubChartApply (w : World) : List (String × SValue) → Option Err × List Event
  | [] => (none, [])
  | (_, .subchart sc) :: rest =>
    match w.hookApplyRes (chartGetName sc) with
    | some e => (some e, [.hookApply (chartGetName sc)])
    | none =>
      let t := eachSubChartApply w rest
      (t.1, .hookApply (chartGetName sc) :: t.2)
  | _ :: rest => eachSubChartApply w rest

/-- Result of the vault-read pass: first error, trace, updated values. -/
structure ReadPass where
  err : Option Err
  trace : List Event
  vals : List (String × SValue)

/-- chartImpl.eachVault specialised to jewel.read: let each jewel read
its pre-existing cluster state in iteration order, stopping at the first
(non-not-found) error. -/
def eachVaultRead (w : World) : List (String × SValue) → ReadPass
  | [] => ⟨none, [], []⟩
  | (nm, .jewelV j) :: rest =>
    let r := Jewel.read j (worldVault w)
    match r.2 with
    | some e => ⟨some e, [.vaultRead j.name], (nm, .jewelV r.1) :: rest⟩
    | none =>
      let t := eachVaultRead w rest
      ⟨t.err, .vaultRead j.name :: t.trace, (nm, .jewelV r.1) :: t.vals⟩
  | kv :: rest =>
    let t := eachVaultRead w rest
    ⟨t.err, t.trace, kv :: t.vals⟩

/-- chartImpl.applyLocal: every directly owned jewel reads its cluster
state; only if that pass succeeds, Namespaced is forced to false and the
rendered, decoded manifest stream is submitted to the client's apply. -/
def applyLocalM (w : World) (c : ChartI) : Option Err × List Event × ChartI :=
  let r := eachVaultRead w (ChartI.values c)
  let cNew := ChartI.withValues c r.vals
  match r.err with
  | some e => (some e, r.trace, cNew)
  | none => (w.applyRes (chartGetName c), r.trace ++ [.k8sApply (chartGetName c) false], cNew)

/-- chartImpl.apply (the internal apply hook): dispatch every sub-chart's
script apply hook first (same client); only if that whole pass succeeds,
run the chart's own applyLocal. -/
def chartApplyM (w : World) (c : ChartI) : Option Err × List Event × ChartI :=
  let s := eachSubChartApply w (ChartI.values c)
  match s.1 with
  | some e => (some e, s.2, c)
  | none =>
    let l := applyLocalM w c
    (l.1, s.2 ++ l.2.1, l.2.2)

/-- The names of the jewels directly owned by a values mapping, in
iteration order. -/
def jewelNames : List (String × SValue) → List String
  | [] => []
  | (_, .jewelV j) :: rest => j.name :: jewelNames rest
  | _ :: rest => jewelNames rest

/-- The names of the sub-charts directly owned by a values mapping, in
iteration order. -/
def subchartNames : List (String × SValue) → List String
  | [] => []
  | (_, .subchart sc) :: rest => chartGetName sc :: subchartNames rest
  | _ :: rest => subchartNames rest

/-- Discriminator: did a hash attempt return an error value (as opposed
to succeeding or panicking)? -/
def isErrReturn : Except HashFailure Nat → Bool
  | .error (.err _) => true
  | _ => false

/-- A world in which every cluster and hook operation succeeds and every
vault read reports not-found. -/
def okWorld : World :=
  ⟨fun _ => none, fun _ => none, fun _ => none, fun _ => none,
   fun _ => .error "not found", fun _ => true⟩

/-- A simple backend (no Template, no Delete) with one declared key. -/
def pwdBackend : Backend :=
  ⟨"secret", [("password", "pwd")], fun _ => .ok [("pwd", "s3cr3t")], none⟩

/-- A simple backend whose Apply fails. -/
def failBackend : Backend :=
  ⟨"secret", [("password", "pwd")], fun _ => .error "boom", none⟩

/-- A jewel over pwdBackend in its initial state. -/
def jw0 : Jewel := ⟨pwdBackend, .init, "jw", []⟩

/-- A jewel over pwdBackend in the Loaded state holding data. -/
def jwLoaded : Jewel := ⟨pwdBackend, .loaded, "jw", [("pwd", "old")]⟩

/-- A jewel over the failing backend, holding stale data. -/
def jwFail : Jewel := ⟨failBackend, .init, "jw", [("pwd", "old")]⟩

/-- A vault with no stored secret (not-found reads). -/
def vaultAbsent : Vault := ⟨fun _ => .error "not found", fun _ => true⟩

/-- A vault whose reads fail with a non-not-found error. -/
def vaultBroken : Vault := ⟨fun _ => .error "io", fun _ => false⟩

/-- A vault holding a stored payload. -/
def vaultPresent : Vault := ⟨fun _ => .ok [("pwd", "stored")], fun _ => false⟩

/-- A childless sub-chart. -/
def subChart0 : ChartI := .mk "subc" "1.0.0" "" "ns" [] []

/-- A parent chart owning one sub-chart and one jewel. -/
def chart0 : ChartI :=
  .mk "par" "1.0.0" "" "ns" [("sub", .subchart subChart0), ("jw", .jewelV jw0)] []

/-- A chart with user values (one shadowing the reserved name) and one
method. -/
def chartV : ChartI :=
  .mk "mychart" "0.1.0" "sfx" "prod"
    [("color", .str "red"), ("name", .str "shadowed")] [("apply", "applyTag")]

/-- One two-entry value mapping in its first iteration order. -/
def hashChartA : ChartI := .mk "c" "1.0.0" "" "ns" [("a", .str "u"), ("b", .str "v")] []

/-- The same two-entry value mapping in the other iteration order. -/
def hashChartB : ChartI := .mk "c" "1.0.0" "" "ns" [("b", .str "v"), ("a", .str "u")] []

/-- A chart holding a jewel among its values. -/
def jewelChart : ChartI := .mk "c" "1.0.0" "" "ns" [("jw", .jewelV jw0)] []

/-- A chart holding a host mapping (hash errors) among its values. -/
def dictChart : ChartI := .mk "c" "1.0.0" "" "ns" [("d", .dict [])] []

/-- ensure on a Ready jewel is a no-op with no backend call. -/
theorem ensure_ready (j : Jewel) (h : j.state = .ready) :
    Jewel.ensure j = ⟨j, none, []⟩ := by
  simp [Jewel.ensure, h]

/-- ensure on a Loaded jewel with a successful transform. -/
theorem ensure_loaded_ok (j : Jewel) (d : DataMap) (h : j.state = .loaded)
    (hd : j.backend.applyFn j.data = .ok d) :
    Jewel.ensure j = ⟨{ j with data := d, state := .ready }, none, [.applyCall j.data]⟩ := by
  simp [Jewel.ensure, h, hd]

/-- ensure on a Loaded jewel with a failing transform. -/
theorem ensure_loaded_err (j : Jewel) (e : Err) (h : j.state = .loaded)
    (hd : j.backend.applyFn j.data = .error e) :
    Jewel.ensure j = ⟨j, some e, [.applyCall j.data]⟩ := by
  simp [Jewel.ensure, h, hd]

/-- ensure on an Init jewel over a complex backend with a successful
Template. -/
theorem ensure_init_complex_ok (j : Jewel) (cpx : (Except Err DataMap) × Option Err)
    (d : DataMap) (h : j.state = .init) (hc : j.backend.complex = some cpx)
    (ht : cpx.1 = .ok d) :
    Jewel.ensure j = ⟨{ j with data := d, state := .ready }, none, [.templateCall]⟩ := by
  simp [Jewel.ensure, h, hc, ht]

/-- ensure on an Init jewel over a complex backend with a failing
Template. -/
theorem ensure_init_complex_err (j : Jewel) (cpx : (Except Err DataMap) × Option Err)
    (e : Err) (h : j.state = .init) (hc : j.backend.complex = some cpx)
    (ht : cpx.1 = .error e) :
    Jewel.ensure j = ⟨j, some e, [.templateCall]⟩ := by
  simp [Jewel.ensure, h, hc, ht]

/-- ensure on an Init jewel over a simple backend with a successful
empty-payload transform. -/
theorem ensure_init_simple_ok (j : Jewel) (d : DataMap) (h : j.state = .init)
    (hc : j.backend.complex = none) (ha : j.backend.applyFn [] = .ok d) :
    Jewel.ensure j = ⟨{ j with data := d, state := .ready }, none, [.applyCall []]⟩ := by
  simp [Jewel.ensure, h, hc, ha]

/-- ensure on an Init jewel over a simple backend with a failing
empty-payload transform. -/
theorem ensure_init_simple_err (j : Jewel) (e : Err) (h : j.state = .init)
    (hc : j.backend.complex = none) (ha : j.backend.applyFn [] = .error e) :
    Jewel.ensure j = ⟨j, some e, [.applyCall []]⟩ := by
  simp [Jewel.ensure, h, hc, ha]

/-- A failing ensure leaves the jewel (state and data) unchanged. -/
theorem ensure_err_jewel_eq (j : Jewel) (e : Err)
    (h : (Jewel.ensure j).err = some e) : (Jewel.ensure j).jewel = j := by
  cases hs : j.state
  · cases hc : j.backend.complex with
    | none =>
      cases ha : j.backend.applyFn [] with
      | error e2 => rw [ensure_init_simple_err j e2 hs hc ha]
      | ok d => rw [ensure_init_simple_ok j d hs hc ha] at h; cases h
    | some cpx =>
      cases ht : cpx.1 with
      | error e2 => rw [ensure_init_complex_err j cpx e2 hs hc ht]
      | ok d => rw [ensure_init_complex_ok j cpx d hs hc ht] at h; cases h
  · cases ha : j.backend.applyFn j.data with
    | error e2 => rw [ensure_loaded_err j e2 hs ha]
    | ok d => rw [ensure_loaded_ok j d hs ha] at h; cases h
  · rw [ensure_ready j hs] at h; cases h

/-- A successful ensure leaves the jewel in the Ready state. -/
theorem ensure_ok_state_ready (j : Jewel)
    (h : (Jewel.ensure j).err = none) : (Jewel.ensure j).jewel.state = .ready := by
  cases hs : j.state
  · cases hc : j.backend.complex with
    | none =>
      cases ha : j.backend.applyFn [] with
      | error e2 => rw [ensure_init_simple_err j e2 hs hc ha] at h; cases h
      | ok d => rw [ensure_init_simple_ok j d hs hc ha]
    | some cpx =>
      cases ht : cpx.1 with
      | error e2 => rw [ensure_init_complex_err j cpx e2 hs hc ht] at h; cases h
      | ok d => rw [ensure_init_complex_ok j cpx d hs hc ht]
  · cases ha : j.backend.applyFn j.data with
    | error e2 => rw [ensure_loaded_err j e2 hs ha] at h; cases h
    | ok d => rw [ensure_loaded_ok j d hs ha]
  · rw [ensure_ready j hs]; exact hs

/-- ensure never changes the backend. -/
theorem ensure_backend_eq (j : Jewel) :
    (Jewel.ensure j).jewel.backend = j.backend := by
  cases hs : j.state
  · cases hc : j.backend.complex with
    | none =>
      cases ha : j.backend.applyFn [] with
      | error e2 => rw [ensure_init_simple_err j e2 hs hc ha]
      | ok d => rw [ensure_init_simple_ok j d hs hc ha]
    | some cpx =>
      cases ht : cpx.1 with
      | error e2 => rw [ensure_init_complex_err j cpx e2 hs hc ht]
      | ok d => rw [ensure_init_complex_ok j cpx d hs hc ht]
  · cases ha : j.backend.applyFn j.data with
    | error e2 => rw [ensure_loaded_err j e2 hs ha]
    | ok d => rw [ensure_loaded_ok j d hs ha]
  · rw [ensure_ready j hs]

/-- Updating a key with assocSet makes it the value found by lookup. -/
theorem lookup_assocSet (l : List (String × SValue)) (k : String) (v : SValue) :
    List.lookup k (assocSet l k v) = some v := by
  induction l with
  | nil => simp [assocSet, List.lookup]
  | cons hd rest ih =>
    rcases hd with ⟨k0, v0⟩
    by_cases hk : k0 = k
    · simp [assocSet, hk, List.lookup]
    · simp only [assocSet, if_neg hk, List.lookup]
      have : (k == k0) = false := by
        simp [hk]
        exact fun h => hk h.symm
      rw [this]
      exact ih

/-- withValues keeps the chart's derived name. -/
theorem withValues_getName (c : ChartI) (vs : List (String × SValue)) :
    chartGetName (ChartI.withValues c vs) = chartGetName c := by
  cases c; rfl

/-- withValues keeps the chart's namespace. -/
theorem withValues_ns (c : ChartI) (vs : List (String × SValue)) :
    ChartI.ns (ChartI.withValues c vs) = ChartI.ns c := by
  cases c; rfl

/-- withValues keeps the chart's class name. -/
theorem withValues_clazzName (c : ChartI) (vs : List (String × SValue)) :
    ChartI.clazzName (ChartI.withValues c vs) = ChartI.clazzName c := by
  cases c; rfl

/-- withValues keeps the chart's class version. -/
theorem withValues_clazzVersion (c : ChartI) (vs : List (String × SValue)) :
    ChartI.clazzVersion (ChartI.withValues c vs) = ChartI.clazzVersion c := by
  cases c; rfl

/-- withValues installs exactly the given values. -/
theorem withValues_values (c : ChartI) (vs : List (String × SValue)) :
    ChartI.values (ChartI.withValues c vs) = vs := by
  cases c; rfl

/-- A successful vault-read pass reads every directly owned jewel, in
iteration order. -/
theorem eachVaultRead_trace (w : World) (l : List (String × SValue))
    (h : (eachVaultRead w l).err = none) :
    (eachVaultRead w l).trace = (jewelNames l).map Event.vaultRead := by
  induction l with
  | nil => rfl
  | cons hd rest ih =>
    rcases hd with ⟨nm, v⟩
    cases v with
    | jewelV j =>
      cases hr : (Jewel.read j (worldVault w)).2 with
      | some e => simp [eachVaultRead, hr] at h
      | none =>
        simp [eachVaultRead, hr, jewelNames] at h ⊢
        exact ih h
    | str s => simp [eachVaultRead, jewelNames] at h ⊢; exact ih h
    | dict es => simp [eachVaultRead, jewelNames] at h ⊢; exact ih h
    | sandboxDict es => simp [eachVaultRead, jewelNames] at h ⊢; exact ih h
    | callable t => simp [eachVaultRead, jewelNames] at h ⊢; exact ih h
    | clazzV n ver => simp [eachVaultRead, jewelNames] at h ⊢; exact ih h
    | subchart sc => simp [eachVaultRead, jewelNames] at h ⊢; exact ih h

/-- A successful jewel-release pass releases every directly owned jewel,
in iteration order. -/
theorem eachVaultDelete_trace (l : List (String × SValue))
    (h : (eachVaultDelete l).1 = none) :
    (eachVaultDelete l).2 = (jewelNames l).map Event.jewelDelete := by
  induction l with
  | nil => rfl
  | cons hd rest ih =>
    rcases hd with ⟨nm, v⟩
    cases v with
    | jewelV j =>
      cases hr : Jewel.del j with
      | some e => simp [eachVaultDelete, hr] at h
      | none =>
        simp [eachVaultDelete, hr, jewelNames] at h ⊢
        exact ih h
    | str s => simp [eachVaultDelete, jewelNames] at h ⊢; exact ih h
    | dict es => simp [eachVaultDelete, jewelNames] at h ⊢; exact ih h
    | sandboxDict es => simp [eachVaultDelete, jewelNames] at h ⊢; exact ih h
    | callable t => simp [eachVaultDelete, jewelNames] at h ⊢; exact ih h
    | clazzV n ver => simp [eachVaultDelete, jewelNames] at h ⊢; exact ih h
    | subchart sc => simp [eachVaultDelete, jewelNames] at h ⊢; exact ih h

/-- A successful delete-hook pass dispatches every sub-chart's delete
hook, in iteration order. -/
theorem eachSubChartDelete_trace (w : World) (l : List (String × SValue))
    (h : (eachSubChartDelete w l).1 = none) :
    (eachSubChartDelete w l).2 = (subchartNames l).map Event.hookDelete := by
  induction l with
  | nil => rfl
  | cons hd rest ih =>
    rcases hd with ⟨nm, v⟩
    cases v with
    | subchart sc =>
      cases hr : w.hookDeleteRes (chartGetName sc) with
      | some e => simp [eachSubChartDelete, hr] at h
      | none =>
        simp [eachSubChartDelete, hr, subchartNames] at h ⊢
        exact ih h
    | str s => simp [eachSubChartDelete, subchartNames] at h ⊢; exact ih h
    | dict es => simp [eachSubChartDelete, subchartNames] at h ⊢; exact ih h
    | sandboxDict es => simp [eachSubChartDelete, subchartNames] at h ⊢; exact ih h
    | callable t => simp [eachSubChartDelete, subchartNames] at h ⊢; exact ih h
    | clazzV n ver => simp [eachSubChartDelete, subchartNames] at h ⊢; exact ih h
    | jewelV j => simp [eachSubChartDelete, subchartNames] at h ⊢; exact ih h

/-- A successful apply-hook pass dispatches every sub-chart's apply hook,
in iteration order. -/
theorem eachSubChartApply_trace (w : World) (l : List (String × SValue))
    (h : (eachSubChartApply w l).1 = none) :
    (eachSubChartApply w l).2 = (subchartNames l).map Event.hookApply := by
  induction l with
  | nil => rfl
  | cons hd rest ih =>
    rcases hd with ⟨nm, v⟩
    cases v with
    | subchart sc =>
      cases hr : w.hookApplyRes (chartGetName sc) with
      | some e => simp [eachSubChartApply, hr] at h
      | none =>
        simp [eachSubChartApply, hr, subchartNames] at h ⊢
        exact ih h
    | str s => simp [eachSubChartApply, subchartNames] at h ⊢; exact ih h
    | dict es => simp [eachSubChartApply, subchartNames] at h ⊢; exact ih h
    | sandboxDict es => simp [eachSubChartApply, subchartNames] at h ⊢; exact ih h
    | callable t => simp [eachSubChartApply, subchartNames] at h ⊢; exact ih h
    | clazzV n ver => simp [eachSubChartApply, subchartNames] at h ⊢; exact ih h
    | jewelV j => simp [eachSubChartApply, subchartNames] at h ⊢; exact ih h

/-- The entry fold of chartImpl.Hash returns no hash when some entry's
value is unhashable. -/
theorem hashEntries_err (k : String) (v : SValue)
    (hbad : ∃ f, svalueHash v = .error f) (l : List (String × SValue))
    (hmem : (k, v) ∈ l) :
    ∀ x m, ∃ f, hashEntries l x m = .error f := by
  induction l with
  | nil => cases hmem
  | cons hd rest ih =>
    intro x m
    rcases hd with ⟨k0, v0⟩
    rcases List.mem_cons.mp hmem with heq | hmem2
    · obtain ⟨f, hf⟩ := hbad
      have hv : v0 = v := (Prod.mk.injEq k v k0 v0 ▸ heq).2.symm
      exact ⟨f, by simp [hashEntries, hv, hf]⟩
    · cases hs : svalueHash v0 with
      | error f => exact ⟨f, by simp [hashEntries, hs]⟩
      | ok y =>
        obtain ⟨f, hf⟩ := ih hmem2 (u32 (u32 (x ^^^ u32 (3 * fnvHash k0)) ^^^ u32 (y * m))) (u32 (m + 7349))
        exact ⟨f, by simp [hashEntries, hs, hf]⟩

/-- C3: jewel.ensure dispatches on the current state: Ready is a no-op
with no backend call; Loaded invokes the backend transform (Apply) with
the held data; Init invokes Template when the backend supports it, else
Apply with an empty payload; on success the result becomes data and the
state becomes Ready; on backend error state and data are unchanged; a
successful ensure makes every further ensure a no-op with no backend
call, so repeated field accesses see identical payloads. -/
theorem c3_ensure_machine (j : Jewel) :
    (j.state = .ready → Jewel.ensure j = ⟨j, none, []⟩)
  ∧ (j.state = .loaded →
      (∀ d, j.backend.applyFn j.data = .ok d →
        Jewel.ensure j = ⟨{ j with data := d, state := .ready }, none, [.applyCall j.data]⟩)
    ∧ (∀ e, j.backend.applyFn j.data = .error e →
        Jewel.ensure j = ⟨j, some e, [.applyCall j.data]⟩))
  ∧ (j.state = .init →
      (∀ cpx, j.backend.complex = some cpx →
        (∀ d, cpx.1 = .ok d →
          Jewel.ensure j = ⟨{ j with data := d, state := .ready }, none, [.templateCall]⟩)
      ∧ (∀ e, cpx.1 = .error e →
          Jewel.ensure j = ⟨j, some e, [.templateCall]⟩))
    ∧ (j.backend.complex = none →
        (∀ d, j.backend.applyFn [] = .ok d →
          Jewel.ensure j = ⟨{ j with data := d, state := .ready }, none, [.applyCall []]⟩)
      ∧ (∀ e, j.backend.applyFn [] = .error e →
          Jewel.ensure j = ⟨j, some e, [.applyCall []]⟩)))
  ∧ ((Jewel.ensure j).err = none → (Jewel.ensure j).jewel.state = .ready)
  ∧ (∀ e, (Jewel.ensure j).err = some e → (Jewel.ensure j).jewel = j)
  ∧ ((Jewel.ensure j).err = none →
      Jewel.ensure (Jewel.ensure j).jewel = ⟨(Jewel.ensure j).jewel, none, []⟩) := by
  refine ⟨fun h => ensure_ready j h,
    fun h => ⟨fun d hd => ensure_loaded_ok j d h hd, fun e he => ensure_loaded_err j e h he⟩,
    fun h => ⟨fun cpx hc => ⟨fun d ht => ensure_init_complex_ok j cpx d h hc ht,
        fun e ht => ensure_init_complex_err j cpx e h hc ht⟩,
      fun hc => ⟨fun d ha => ensure_init_simple_ok j d h hc ha,
        fun e ha => ensure_init_simple_err j e h hc ha⟩⟩,
    fun h => ensure_ok_state_ready j h,
    fun e h => ensure_err_jewel_eq j e h,
    fun h => ensure_ready (Jewel.ensure j).jewel (ensure_ok_state_ready j h)⟩

/-- C3 witness: a Loaded jewel invokes Apply with its held data and
becomes Ready; the next ensure is a no-op with no backend call. -/
theorem c3_ensure_machine_witness :
    Jewel.ensure jwLoaded
      = ⟨⟨pwdBackend, .ready, "jw", [("pwd", "s3cr3t")]⟩, none, [.applyCall [("pwd", "old")]]⟩
  ∧ Jewel.ensure ⟨pwdBackend, .ready, "jw", [("pwd", "s3cr3t")]⟩
      = ⟨⟨pwdBackend, .ready, "jw", [("pwd", "s3cr3t")]⟩, none, []⟩ := by
  refine ⟨(c3_ensure_machine jwLoaded).2.1 rfl |>.1 [("pwd", "s3cr3t")] rfl, ?_⟩
  exact (c3_ensure_machine ⟨pwdBackend, .ready, "jw", [("pwd", "s3cr3t")]⟩).1 rfl

/-- C4: jewel.read on an Init jewel: a not-found read leaves the state
Init and returns no error; any other read failure is returned with state
and data untouched; a successful read stores the payload and moves the
state to Loaded. -/
theorem c4_jewel_read (j : Jewel) (v : Vault) (hInit : j.state = .init) :
    (∀ e, v.readFn j.name = .error e → v.isNotExist e = true →
        Jewel.read j v = (j, none) ∧ (Jewel.read j v).1.state = .init)
  ∧ (∀ e, v.readFn j.name = .error e → v.isNotExist e = false →
        Jewel.read j v = (j, some e))
  ∧ (∀ d, v.readFn j.name = .ok d →
        Jewel.read j v = ({ j with data := d, state := .loaded }, none)) := by
  refine ⟨fun e he hn => ?_, fun e he hn => ?_, fun d hd => ?_⟩
  · have hr : Jewel.read j v = (j, none) := by simp [Jewel.read, he, hn]
    exact ⟨hr, by rw [hr]; exact hInit⟩
  · simp [Jewel.read, he, hn]
  · simp [Jewel.read, hd]

/-- C4 witness: the three read outcomes on a concrete Init jewel. -/
theorem c4_jewel_read_witness :
    Jewel.read jw0 vaultAbsent = (jw0, none)
  ∧ Jewel.read jw0 vaultBroken = (jw0, some "io")
  ∧ Jewel.read jw0 vaultPresent = (⟨pwdBackend, .loaded, "jw", [("pwd", "stored")]⟩, none) := by
  exact ⟨((c4_jewel_read jw0 vaultAbsent rfl).1 "not found" rfl rfl).1,
    (c4_jewel_read jw0 vaultBroken rfl).2.1 "io" rfl rfl,
    (c4_jewel_read jw0 vaultPresent rfl).2.2 [("pwd", "stored")] rfl⟩

/-- C6: jewel.Attr answers "name" from the jewel itself with no backend
call; a name outside the backend's declared key mapping is a
no-such-attribute error referencing the backend name, still with no
backend call; a declared key first runs ensure (whose error propagates
with the jewel unchanged) and then decodes the payload under the mapped
key as text, an absent payload decoding to the empty string rather than
an error. -/
theorem c6_jewel_attr (j : Jewel) (a : String) :
    jewelAttr j "name" = (j, .ok (.str j.name), [])
  ∧ (a ≠ "name" → List.lookup a j.backend.keys = none →
      jewelAttr j a
        = (j, .error (.noSuchAttr (j.backend.name ++ " has no ." ++ a ++ " attribute")), []))
  ∧ (∀ key, a ≠ "name" → List.lookup a j.backend.keys = some key →
      (∀ e, (Jewel.ensure j).err = some e →
        jewelAttr j a = (j, .error (.backend e), (Jewel.ensure j).calls))
    ∧ ((Jewel.ensure j).err = none →
        jewelAttr j a
          = ((Jewel.ensure j).jewel,
             .ok (.str (dataValue (List.lookup key (Jewel.ensure j).jewel.data))),
             (Jewel.ensure j).calls)))
  ∧ dataValue none = "" := by
  refine ⟨rfl, fun ha hk => ?_, fun key ha hk => ⟨fun e he => ?_, fun he => ?_⟩, rfl⟩
  · simp [jewelAttr, ha, hk]
  · have heq := ensure_err_jewel_eq j e he
    simp [jewelAttr, ha, hk, he, heq]
  · simp [jewelAttr, ha, hk, he]

/-- C6 witness: a declared key triggers one backend call and decodes the
generated payload; an undeclared key fails naming the backend. -/
theorem c6_jewel_attr_witness :
    jewelAttr jw0 "password"
      = (⟨pwdBackend, .ready, "jw", [("pwd", "s3cr3t")]⟩, .ok (.str "s3cr3t"), [.applyCall []])
  ∧ jewelAttr jw0 "missing"
      = (jw0, .error (.noSuchAttr "secret has no .missing attribute"), []) := by
  exact ⟨((c6_jewel_attr jw0 "password").2.2.1 "pwd" (by decide) rfl).2 rfl,
    (c6_jewel_attr jw0 "missing").2.1 (by decide) rfl⟩

/-- C10: jewel.templateValues never reports an error: a failing ensure is
discarded (leaving the jewel unchanged), and the result maps every
declared field name to the text decoding of the currently held payload,
absent payloads mapping to the empty string. -/
theorem c10_template_values (j : Jewel) :
    (Jewel.templateValues j).2
      = j.backend.keys.map (fun kv => (kv.1, dataValue (List.lookup kv.2 (Jewel.templateValues j).1.data)))
  ∧ ((Jewel.templateValues j).2).map Prod.fst = j.backend.keys.map Prod.fst
  ∧ (∀ e, (Jewel.ensure j).err = some e → (Jewel.templateValues j).1 = j) := by
  refine ⟨?_, ?_, fun e he => ?_⟩
  · simp only [Jewel.templateValues, ensure_backend_eq]
  · simp only [Jewel.templateValues, ensure_backend_eq, List.map_map]
    rfl
  · simp only [Jewel.templateValues]
    exact ensure_err_jewel_eq j e he

/-- C10 witness: a failing backend leaves the jewel unchanged and the
held payload is still exposed, with no error anywhere. -/
theorem c10_template_values_witness :
    (Jewel.templateValues jwFail).1 = jwFail
  ∧ (Jewel.templateValues jwFail).2 = [("password", "old")] := by
  refine ⟨(c10_template_values jwFail).2.2 "boom" rfl, rfl⟩

/-- C5: chartImpl.Attr resolves in order: the reserved names namespace,
name and __class__ are answered from chart metadata and shadow user
values; then the values mapping (the stored value wrapped for the
sandbox); then the methods mapping; otherwise a no-such-attribute error
naming the attribute and identifying the chart. -/
theorem c5_chart_attr (c : ChartI) (a : String) :
    chartAttr c "namespace" = .ok (.str (ChartI.ns c))
  ∧ chartAttr c "name" = .ok (.str (chartGetName c))
  ∧ chartAttr c "__class__" = .ok (.clazzV (ChartI.clazzName c) (ChartI.clazzVersion c))
  ∧ (a ≠ "namespace" → a ≠ "name" → a ≠ "__class__" →
      (∀ v, List.lookup a (ChartI.values c) = some v → chartAttr c a = .ok (wrapDict v))
    ∧ (List.lookup a (ChartI.values c) = none →
        (∀ m, List.lookup a (ChartI.methods c) = some m → chartAttr c a = .ok (.callable m))
      ∧ (List.lookup a (ChartI.methods c) = none →
          chartAttr c a = .error (.noSuchAttr ("chart has no ." ++ a ++ " attribute"))))) := by
  refine ⟨rfl, rfl, rfl, fun h1 h2 h3 => ⟨fun v hv => ?_, fun hv => ⟨fun m hm => ?_, fun hm => ?_⟩⟩⟩
  · simp [chartAttr, h1, h2, h3, hv]
  · simp [chartAttr, h1, h2, h3, hv, hm]
  · simp [chartAttr, h1, h2, h3, hv, hm]

/-- C5 witness: on a concrete chart the reserved name shadows a colliding
user value, a stored value is returned, and an unregistered name fails
with the named no-such-attribute error. -/
theorem c5_chart_attr_witness :
    chartAttr chartV "name" = .ok (.str "mychart-sfx")
  ∧ chartAttr chartV "color" = .ok (.str "red")
  ∧ chartAttr chartV "apply" = .ok (.callable "applyTag")
  ∧ chartAttr chartV "missing" = .error (.noSuchAttr "chart has no .missing attribute") := by
  refine ⟨(c5_chart_attr chartV "color").2.1, ?_, ?_, ?_⟩
  · exact ((c5_chart_attr chartV "color").2.2.2 (by decide) (by decide) (by decide)).1
      (.str "red") rfl
  · exact (((c5_chart_attr chartV "apply").2.2.2 (by decide) (by decide) (by decide)).2 rfl).1
      "applyTag" rfl
  · exact (((c5_chart_attr chartV "missing").2.2.2 (by decide) (by decide) (by decide)).2 rfl).2 rfl

/-- C9: chartImpl.SetField stores the unwrapped value into the values
mapping and always returns a nil error, for every name including the
reserved ones; after such a write the reserved names still read back the
chart's metadata (shadowing is enforced on read only), while the stored
value is found in the values mapping. -/
theorem c9_setfield (c : ChartI) (a : String) (v : SValue) :
    (chartSetField c a v).2 = none
  ∧ List.lookup a (ChartI.values (chartSetField c a v).1) = some (unwrapDict v)
  ∧ chartAttr (chartSetField c a v).1 "name" = .ok (.str (chartGetName c))
  ∧ chartAttr (chartSetField c a v).1 "namespace" = .ok (.str (ChartI.ns c))
  ∧ chartAttr (chartSetField c a v).1 "__class__"
      = .ok (.clazzV (ChartI.clazzName c) (ChartI.clazzVersion c)) := by
  refine ⟨rfl, ?_, ?_, ?_, ?_⟩
  · simp only [chartSetField, withValues_values]
    exact lookup_assocSet (ChartI.values c) a (unwrapDict v)
  · simp [chartAttr, chartSetField, withValues_getName]
  · simp [chartAttr, chartSetField, withValues_ns]
  · simp [chartAttr, chartSetField, withValues_clazzName, withValues_clazzVersion]

/-- C2: the entry-combination step of chartImpl.Hash multiplies each
value hash by a per-position multiplier m (9839, then +7349 each entry),
so permuting the iteration order of one and the same two-entry mapping
of hashable string values changes the result: the claimed permutation
invariance fails on the code. -/
theorem c2_hash_order_dependent :
    List.Perm (ChartI.values hashChartA) (ChartI.values hashChartB)
  ∧ chartHashGo hashChartA = .ok 2643791236
  ∧ chartHashGo hashChartB = .ok 3751649111
  ∧ (2643791236 : Nat) ≠ 3751649111 := by
  refine ⟨?_, rfl, rfl, by decide⟩
  show List.Perm [("a", SValue.str "u"), ("b", SValue.str "v")]
    [("b", SValue.str "v"), ("a", SValue.str "u")]
  exact List.Perm.swap _ _ _

/-- C8 counterexample: a chart whose values contain a jewel does not
return an error from Hash: jewel.Hash aborts with the Go panic
"implement me", which chartImpl.Hash cannot intercept. -/
theorem c8_counterexample :
    chartHashGo jewelChart = .error (.panicked "implement me")
  ∧ isErrReturn (chartHashGo jewelChart) = false := by
  exact ⟨rfl, rfl⟩

/-- C8 amended: for every chart whose values mapping contains some
unhashable value, Hash(chart) fails to return a hash; the failure is the
contained value's own failure mode, which for a jewel is a panic
("implement me") rather than a returned error. -/
theorem c8_hash_unhashable (c : ChartI) (k : String) (v : SValue)
    (hmem : (k, v) ∈ ChartI.values c) (hbad : ∃ f, svalueHash v = .error f) :
    ∃ f, chartHashGo c = .error f := by
  cases c with
  | mk n ver sfx ns vs ms =>
    exact hashEntries_err k v hbad vs hmem 8731 9839

/-- C8 amended witness: a chart holding a host mapping (whose starlark
Hash reports an error) yields no hash. -/
theorem c8_hash_unhashable_witness :
    (("d", SValue.dict []) ∈ ChartI.values dictChart)
  ∧ (∃ f, chartHashGo dictChart = .error f) := by
  refine ⟨List.mem_singleton.mpr rfl,
    c8_hash_unhashable dictChart "d" (SValue.dict []) (List.mem_singleton.mpr rfl)
      ⟨.err "unhashable type: dict", rfl⟩⟩

/-- C1 counterexample: on a chart with one sub-chart and one jewel, the
internal delete hook's trace starts with the sub-chart's delete hook
dispatch; the chart's own manifest removal is only submitted afterwards,
so the claimed local-before-sub ordering fails on the code (while the
secret release does come after the local removal). -/
theorem c1_counterexample :
    (chartDeleteM okWorld chart0).2
      = [.hookDelete "subc", .k8sDelete "par" false, .jewelDelete "jw"]
  ∧ (chartDeleteM okWorld chart0).2.head? = some (.hookDelete "subc") := by
  exact ⟨rfl, rfl⟩

/-- C1 amended: the internal delete hook dispatches the delete hooks of
all sub-charts first; only if that pass succeeds does it submit the
chart's own manifest removals (Namespaced forced to false), and only
after that local removal has succeeded does it release the chart's own
managed secrets; any failure stops the later steps. -/
theorem c1_delete_order (w : World) (c : ChartI) :
    (∃ t, (chartDeleteM w c).2 = (eachSubChartDelete w (ChartI.values c)).2 ++ t)
  ∧ (∀ e, (eachSubChartDelete w (ChartI.values c)).1 = some e →
      chartDeleteM w c = (some e, (eachSubChartDelete w (ChartI.values c)).2))
  ∧ ((eachSubChartDelete w (ChartI.values c)).1 = none →
      ((eachSubChartDelete w (ChartI.values c)).2
          = (subchartNames (ChartI.values c)).map Event.hookDelete)
    ∧ (∀ e, w.deleteRes (chartGetName c) = some e →
        chartDeleteM w c
          = (some e, (eachSubChartDelete w (ChartI.values c)).2
              ++ [.k8sDelete (chartGetName c) false]))
    ∧ (w.deleteRes (chartGetName c) = none →
        (chartDeleteM w c).2
          = (eachSubChartDelete w (ChartI.values c)).2
              ++ .k8sDelete (chartGetName c) false :: (eachVaultDelete (ChartI.values c)).2
      ∧ (chartDeleteM w c).1 = (eachVaultDelete (ChartI.values c)).1
      ∧ ((eachVaultDelete (ChartI.values c)).1 = none →
          (eachVaultDelete (ChartI.values c)).2
            = (jewelNames (ChartI.values c)).map Event.jewelDelete))) := by
  refine ⟨?_, fun e he => ?_, fun hs => ⟨eachSubChartDelete_trace w _ hs,
    fun e he => ?_, fun hd => ⟨?_, ?_, eachVaultDelete_trace _⟩⟩⟩
  · cases hs : (eachSubChartDelete w (ChartI.values c)).1 with
    | some e => exact ⟨[], by simp [chartDeleteM, hs]⟩
    | none => exact ⟨(deleteLocalM w c).2, by simp [chartDeleteM, hs]⟩
  · simp [chartDeleteM, he]
  · simp [chartDeleteM, deleteLocalM, hs, he]
  · simp [chartDeleteM, deleteLocalM, hs, hd]
  · simp [chartDeleteM, deleteLocalM, hs, hd]

/-- C1 amended witness: on the concrete chart, sub-chart hook dispatch
precedes the local removal, which precedes the jewel release. -/
theorem c1_delete_order_witness :
    (chartDeleteM okWorld chart0).2
      = (eachSubChartDelete okWorld (ChartI.values chart0)).2
          ++ Event.k8sDelete "par" false :: (eachVaultDelete (ChartI.values chart0)).2
  ∧ (chartDeleteM okWorld chart0).1 = none := by
  have h := ((c1_delete_order okWorld chart0).2.2 rfl).2.2 rfl
  exact ⟨h.1, h.2.1⟩

/-- C7: the internal apply hook dispatches every sub-chart's own apply
script hook before the chart's local apply; the local apply first lets
every directly owned jewel read its pre-existing cluster state, then
renders and submits the manifest stream with Namespaced forced to false;
any failure in an earlier step prevents the later steps. -/
theorem c7_apply_order (w : World) (c : ChartI) :
    (∃ t, (chartApplyM w c).2.1 = (eachSubChartApply w (ChartI.values c)).2 ++ t)
  ∧ (∀ e, (eachSubChartApply w (ChartI.values c)).1 = some e →
      chartApplyM w c = (some e, (eachSubChartApply w (ChartI.values c)).2, c))
  ∧ ((eachSubChartApply w (ChartI.values c)).1 = none →
      ((eachSubChartApply w (ChartI.values c)).2
          = (subchartNames (ChartI.values c)).map Event.hookApply)
    ∧ (∀ e, (eachVaultRead w (ChartI.values c)).err = some e →
        (chartApplyM w c).1 = some e
      ∧ (chartApplyM w c).2.1
          = (eachSubChartApply w (ChartI.values c)).2
              ++ (eachVaultRead w (ChartI.values c)).trace)
    ∧ ((eachVaultRead w (ChartI.values c)).err = none →
        (chartApplyM w c).2.1
          = (eachSubChartApply w (ChartI.values c)).2
              ++ (eachVaultRead w (ChartI.values c)).trace
              ++ [.k8sApply (chartGetName c) false]
      ∧ (chartApplyM w c).1 = w.applyRes (chartGetName c)
      ∧ (eachVaultRead w (ChartI.values c)).trace
          = (jewelNames (ChartI.values c)).map Event.vaultRead)) := by
  refine ⟨?_, fun e he => ?_, fun hs => ⟨eachSubChartApply_trace w _ hs,
    fun e he => ⟨?_, ?_⟩, fun hr => ⟨?_, ?_, eachVaultRead_trace w _ hr⟩⟩⟩
  · cases hs : (eachSubChartApply w (ChartI.values c)).1 with
    | some e => exact ⟨[], by simp [chartApplyM, hs]⟩
    | none => exact ⟨(applyLocalM w c).2.1, by simp [chartApplyM, hs]⟩
  · simp [chartApplyM, he]
  · simp [chartApplyM, applyLocalM, hs, he]
  · simp [chartApplyM, applyLocalM, hs, he]
  · simp [chartApplyM, applyLocalM, hs, hr]
  · simp [chartApplyM, applyLocalM, hs, hr]

/-- C7 witness: on the concrete chart, the sub-chart apply hook runs
first, then the jewel's vault read, and only then the local manifest
submission with Namespaced false. -/
theorem c7_apply_order_witness :
    (chartApplyM okWorld chart0).2.1
      = [Event.hookApply "subc", Event.vaultRead "jw", Event.k8sApply "par" false]
  ∧ (chartApplyM okWorld chart0).1 = none := by
  have h := ((c7_apply_order okWorld chart0).2.2 rfl).2.2 rfl
  exact ⟨h.1, h.2.1⟩

end Shalm
